import Mathlib

/-!
Shallow embedding of the Context Indexing and Retrieval Engine of the
multi-agent-orchestration repository (src/src/context/storage.ts,
src/src/context/retrieval.ts, src/src/context/types.ts), together with
theorems settling the frozen claims about it.

Modelling conventions:
- JavaScript strings are Lean `String`s; lines are produced by splitting on
  the newline character, exactly as `content.split` with a newline separator.
- JavaScript numbers holding item counts and percentages are `Nat`; the
  float expression `Math.round((c / t) * 100)` is modelled by its exact
  rational value, rounding halves toward positive infinity.
- Regular expressions are modelled by executable matching functions derived
  from the source patterns, including greedy matching with backtracking.
  Lines are assumed to contain no newline (they come from a newline split)
  and no carriage return, so the regex dot is modelled as matching any
  character of the line.
- Asynchronous database and embeddings-provider calls are modelled by an
  explicit environment carrying the table contents and two availability
  flags; a failing call corresponds to a cleared flag.  JSON encode/decode
  round-trips of structured sub-fields are modelled as the identity.
-/

namespace Mao

/-- Whitespace test for the ASCII range, matching the JavaScript regex
whitespace class and the whitespace set removed by the trim method
(space, tab, newline, carriage return, vertical tab, form feed). -/
def isWs (c : Char) : Bool :=
  c = ' ' || c = '\t' || c = '\n' || c = '\r' || c = '\x0b' || c = '\x0c'

/-- Splitting of a character list at newline characters, modelling the
JavaScript string split with a newline separator: the empty string yields
one empty line, and a trailing newline yields a trailing empty line. -/
def splitLinesChars : List Char → List (List Char)
  | [] => [[]]
  | c :: cs =>
    if c = '\n' then [] :: splitLinesChars cs
    else
      match splitLinesChars cs with
      | [] => [[c]]
      | l :: ls => (c :: l) :: ls

/-- Lines of a string, as in the JavaScript split on the newline character. -/
def splitLines (s : String) : List String :=
  (splitLinesChars s.data).map String.mk

/-- Join of a list of lines with newline separators, as in the JavaScript
array join. -/
def joinLines : List String → String
  | [] => ""
  | [l] => l
  | l :: ls => l ++ "\n" ++ joinLines ls

/-- Removal of leading and trailing whitespace from a character list. -/
def trimChars (l : List Char) : List Char :=
  ((l.dropWhile isWs).reverse.dropWhile isWs).reverse

/-- Model of the JavaScript trim method. -/
def trimJS (s : String) : String :=
  String.mk (trimChars s.data)

/-- Length of the leading whitespace run of a character list. -/
def wsRun (l : List Char) : Nat :=
  (l.takeWhile isWs).length

/-- Matcher for the heading pattern of parseMarkdownSections: caret, a
group of one to three hash characters, one or more whitespace characters,
then a group capturing at least one further character.  Returns the number
of hashes and the second capture.  A run of four or more hashes never
matches (every choice of the hash group leaves a hash where whitespace is
required), and when everything after the hashes is whitespace the greedy
whitespace quantifier backtracks by one character so the final group can
capture the last whitespace character. -/
def headingMatch (line : List Char) : Option (Nat × List Char) :=
  let m := (line.takeWhile (· = '#')).length
  let tl := line.dropWhile (· = '#')
  if 1 ≤ m ∧ m ≤ 3 then
    match tl with
    | [] => none
    | c :: _ =>
      if isWs c then
        let w := wsRun tl
        if w < tl.length then some (m, tl.drop w)
        else if 2 ≤ tl.length then some (m, tl.drop (w - 1))
        else none
      else none
  else none

/-- Parsed document fragment, as in the PrdSection schema of types.ts.
The embedding field of the schema is never set by the code under study and
is omitted; parseMarkdownSections never sets parentSection. -/
structure PrdSection where
  id : String
  title : String
  content : String
  sectionNumber : String
  parentSection : Option String := none
deriving Repr, DecidableEq

/-- Loop state of parseMarkdownSections: emitted sections, the currently
open section (its content still empty), the accumulated body lines, and
the running section counter. -/
structure PrdParseState where
  sections : List PrdSection
  cur : Option PrdSection
  buf : List String
  idx : Nat

/-- Closing of a section in parseMarkdownSections: the accumulated body is
joined and trimmed, and the section is emitted only when the result is
nonempty. -/
def emitPrd (sec : PrdSection) (buf : List String) : List PrdSection :=
  let c := trimJS (joinLines buf)
  if c = "" then [] else [{ sec with content := c }]

/-- One loop iteration of parseMarkdownSections over a line. -/
def prdStep (filename : String) (st : PrdParseState) (line : String) :
    PrdParseState :=
  match headingMatch line.data with
  | some (_, title) =>
    let secs :=
      match st.cur with
      | some sec => st.sections ++ emitPrd sec st.buf
      | none => st.sections
    let idx := st.idx + 1
    { sections := secs,
      cur := some { id := filename ++ "-" ++ toString idx,
                    title := String.mk title,
                    content := "",
                    sectionNumber := toString idx },
      buf := [],
      idx := idx }
  | none =>
    match st.cur with
    | some _ => { st with buf := st.buf ++ [line] }
    | none => st

/-- Saving of the last open section after the line loop. -/
def finishPrd (st : PrdParseState) : List PrdSection :=
  match st.cur with
  | some sec => st.sections ++ emitPrd sec st.buf
  | none => st.sections

/-- Model of parseMarkdownSections from storage.ts: fold the line loop over
the lines of the document and close the last open section. -/
def parseMarkdownSections (content filename : String) : List PrdSection :=
  finishPrd ((splitLines content).foldl (prdStep filename) ⟨[], none, [], 0⟩)

/-- Predicate for lines that are not section boundaries. -/
def notHeading (l : String) : Bool :=
  (headingMatch l.data).isNone

/-- Specification-level description of the markdown section parser, stated
the way the spec describes it: lines before the first heading are ignored;
each heading line bumps the running counter and owns the body lines up to
the next heading; the section is emitted only when its joined and trimmed
body is nonempty, numbered by the ordinal of its heading among all heading
lines seen. -/
def markdownSectionsSpec (filename : String) : Nat → List String → List PrdSection
  | _, [] => []
  | k, l :: ls =>
    match headingMatch l.data with
    | none => markdownSectionsSpec filename k ls
    | some (_, title) =>
      let body := ls.takeWhile notHeading
      let rest := ls.dropWhile notHeading
      let c := trimJS (joinLines body)
      (if c = "" then []
       else [{ id := filename ++ "-" ++ toString (k + 1),
               title := String.mk title,
               content := c,
               sectionNumber := toString (k + 1) }]) ++
        markdownSectionsSpec filename (k + 1) rest
termination_by _ ls => ls.length
decreasing_by
  · simp [List.length_cons]
  · have h := (List.dropWhile_sublist (l := ls) (p := notHeading)).length_le
    simp [List.length_cons]; omega

/-- Length of the leading digit run of a character list. -/
def digitRun (l : List Char) : Nat :=
  (l.takeWhile Char.isDigit).length

/-- Alternatives for a greedy one-or-more digit quantifier, in backtracking
priority order: the maximal digit run first, down to a single digit; empty
when no digit is present. -/
def digitPlus (r : List Char) : List (List Char × List Char) :=
  let d := digitRun r
  (List.range d).map (fun i => (r.take (d - i), r.drop (d - i)))

/-- Alternatives for a greedy zero-or-more digit quantifier, in backtracking
priority order: the maximal digit run first, down to the empty match. -/
def digitStar (r : List Char) : List (List Char × List Char) :=
  let d := digitRun r
  (List.range (d + 1)).map (fun i => (r.take (d - i), r.drop (d - i)))

/-- Alternatives for a greedy optional literal dot, in priority order:
consume the dot when present, else match nothing. -/
def optDot (r : List Char) : List (List Char × List Char) :=
  match r with
  | '.' :: rs => [(['.'], rs), ([], r)]
  | _ => [([], r)]

/-- Alternatives for the numeric-token group of the checklist heading
pattern (digits, optional dot, optional digits, optional dot), in
backtracking priority order, each with the remaining suffix. -/
def numCandidates (r : List Char) : List (List Char × List Char) :=
  (digitPlus r).flatMap (fun a =>
    (optDot a.2).flatMap (fun b =>
      (digitStar b.2).flatMap (fun c =>
        (optDot c.2).map (fun d => (a.1 ++ b.1 ++ c.1 ++ d.1, d.2)))))

/-- Final capture of a pattern tail consisting of a greedy zero-or-more
whitespace quantifier followed by a group capturing at least one character:
the capture starts after the whitespace run, except that on an all-white
remainder the quantifier backtracks by one so one character is left. -/
def tailCapture (r : List Char) : Option (List Char) :=
  if r = [] then none
  else
    let w := wsRun r
    if w < r.length then some (r.drop w) else some (r.drop (w - 1))

/-- Matching of the part of the checklist heading pattern after the hashes:
one or more whitespace characters, the optional numeric-token group, more
optional whitespace, then the capture of the rest.  The greedy whitespace
quantifier keeps its maximal match whenever anything follows it; on an
all-whitespace tail it backtracks by one character, skipping the numeric
group.  Numeric-group alternatives that consume the whole tail fail at the
final one-or-more group and are skipped. -/
def todoHeadTail (tl : List Char) :
    Option (Option (List Char) × List Char) :=
  let w := wsRun tl
  if w = 0 then none
  else
    let rest := tl.drop w
    if rest = [] then
      if 2 ≤ tl.length then some (none, tl.drop (w - 1)) else none
    else
      match (numCandidates rest).filter (fun p => ¬ p.2 = []) with
      | (num, r) :: _ => some (some num, (tailCapture r).getD [])
      | [] => some (none, (tailCapture rest).getD [])

/-- Matcher for the section-heading pattern of parseTodoMarkdown: caret,
two or three hashes, whitespace, the optional numeric token, optional
whitespace, then the name capture.  Four or more leading hashes never
match, because every choice of the hash quantifier leaves a hash where
whitespace is required. -/
def todoSectionMatch (line : List Char) :
    Option (Option (List Char) × List Char) :=
  let m := (line.takeWhile (· = '#')).length
  if m = 2 ∨ m = 3 then todoHeadTail (line.dropWhile (· = '#')) else none

/-- Matcher for the checklist-item pattern of parseTodoMarkdown: optional
leading whitespace, a dash, optional whitespace, a bracketed single marker
character that is a space or the letter x in either case, optional
whitespace, then the description capture of at least one character. -/
def todoItemMatch (line : List Char) : Option (Char × List Char) :=
  match line.dropWhile isWs with
  | '-' :: r1 =>
    match r1.dropWhile isWs with
    | '[' :: mk :: ']' :: r3 =>
      if mk = ' ' ∨ mk = 'x' ∨ mk = 'X' then
        match tailCapture r3 with
        | some desc => some (mk, desc)
        | none => none
      else none
    | _ => none
  | _ => none

/-- Checklist item, as in the TodoItem schema of types.ts; the optional
priority field is never set by the code under study and is omitted. -/
structure TodoItem where
  id : String
  description : String
  completed : Bool
deriving Repr, DecidableEq

/-- Checklist section, as in the TodoSection schema of types.ts. -/
structure TodoSection where
  sectionId : String
  name : String
  items : List TodoItem
  completionPct : Nat
deriving Repr, DecidableEq

/-- Checklist snapshot, as in the TodoState schema of types.ts. -/
structure TodoState where
  timestamp : String
  sections : List TodoSection
  totalItems : Nat
  completedItems : Nat
  overallCompletionPct : Nat
deriving Repr, DecidableEq

/-- Number of completed items of a list. -/
def countCompleted (items : List TodoItem) : Nat :=
  (items.filter (·.completed)).length

/-- Exact-rational model of the rounded percentage expression of
storage.ts, for a positive total: the value closest to one hundred times
completed over total, halves rounded up. -/
def roundPct (completed total : Nat) : Nat :=
  (200 * completed + total) / (2 * total)

/-- Completion percentage of a section as computed on closing it: the
rounded percentage when the section has items, and zero otherwise. -/
def sectionPct (items : List TodoItem) : Nat :=
  if 0 < items.length then roundPct (countCompleted items) items.length else 0

/-- Percentage formula as the spec words it: round of one hundred times
completed over total, defined as zero when the total is zero. -/
def pctFormula (completed total : Nat) : Nat :=
  if 0 < total then roundPct completed total else 0

/-- Removal of a single trailing dot, modelling the anchored dot-stripping
replacement applied to the captured numeric token. -/
def stripDot (s : List Char) : List Char :=
  if s.getLast? = some '.' then s.dropLast else s

/-- Loop state of parseTodoMarkdown: closed sections, the currently open
section, and the running totals. -/
structure TodoParseState where
  sections : List TodoSection
  cur : Option TodoSection
  totalItems : Nat
  completedItems : Nat

/-- Closing of a checklist section: its completion percentage is computed
from its items. -/
def closeTodo (sec : TodoSection) : TodoSection :=
  { sec with completionPct := sectionPct sec.items }

/-- One loop iteration of parseTodoMarkdown over a line.  A heading match
closes the open section and opens a new one whose id is the captured
numeric token with a trailing dot stripped, or a positional placeholder
counted from the sections already closed.  An item match is attached to
the open section only; item lines before any heading are ignored. -/
def todoStep (st : TodoParseState) (line : String) : TodoParseState :=
  match todoSectionMatch line.data with
  | some (num, name) =>
    let secs :=
      match st.cur with
      | some sec => st.sections ++ [closeTodo sec]
      | none => st.sections
    let sid :=
      match num with
      | some n => String.mk (stripDot n)
      | none => "section-" ++ toString (secs.length + 1)
    { st with
      sections := secs,
      cur := some { sectionId := sid, name := trimJS (String.mk name),
                    items := [], completionPct := 0 } }
  | none =>
    match todoItemMatch line.data with
    | some (mk, desc) =>
      match st.cur with
      | some sec =>
        let completed := mk = 'x' || mk = 'X'
        let item : TodoItem :=
          { id := sec.sectionId ++ "-" ++ toString (sec.items.length + 1),
            description := trimJS (String.mk desc),
            completed := completed }
        { st with
          cur := some { sec with items := sec.items ++ [item] },
          totalItems := st.totalItems + 1,
          completedItems := st.completedItems + (if completed then 1 else 0) }
      | none => st
    | none => st

/-- Model of parseTodoMarkdown from storage.ts.  The timestamp recorded by
the source is the current time; it is passed here as the explicit
parameter now. -/
def parseTodoMarkdown (now content : String) : TodoState :=
  let st := (splitLines content).foldl todoStep ⟨[], none, 0, 0⟩
  let secs :=
    match st.cur with
    | some sec => st.sections ++ [closeTodo sec]
    | none => st.sections
  { timestamp := now,
    sections := secs,
    totalItems := st.totalItems,
    completedItems := st.completedItems,
    overallCompletionPct :=
      if 0 < st.totalItems then roundPct st.completedItems st.totalItems
      else 0 }

/-- Vector-indexed checklist section, as in the TodoSectionIndexed schema
of types.ts; the optional embedding field is never set by the code under
study and is omitted. -/
structure TodoSectionIndexed where
  id : String
  sectionId : String
  name : String
  content : String
  items : List TodoItem
  completionPct : Nat
  sourceFile : String
deriving Repr, DecidableEq

/-- Model of todoStateToIndexedSections from storage.ts: one indexed
section per section of the state, with the full checklist text of the
items rebuilt line by line. -/
def todoStateToIndexedSections (state : TodoState) (sourceFile : String) :
    List TodoSectionIndexed :=
  state.sections.map (fun sec =>
    let content :=
      joinLines (sec.items.map (fun item =>
        "- [" ++ (if item.completed then "x" else " ") ++ "] " ++
          item.description))
    { id := sourceFile ++ "-" ++ sec.sectionId,
      sectionId := sec.sectionId,
      name := sec.name,
      content := content,
      items := sec.items,
      completionPct := sec.completionPct,
      sourceFile := sourceFile })

/-- Rendering of one checklist item the way the claim words it. -/
def renderItemSpec (item : TodoItem) : String :=
  (if item.completed then "- [x] " else "- [ ] ") ++ item.description

/-- Indexed section built from a checklist section the way the claim words
it: the four section fields carried over unchanged, the id formed from the
source file and the section id, and the content the items rendered one per
line. -/
def todoSectionIndexedSpec (sourceFile : String) (sec : TodoSection) :
    TodoSectionIndexed :=
  { id := sourceFile ++ "-" ++ sec.sectionId,
    sectionId := sec.sectionId,
    name := sec.name,
    content := joinLines (sec.items.map renderItemSpec),
    items := sec.items,
    completionPct := sec.completionPct,
    sourceFile := sourceFile }

/-- Row of the prd_sections collection.  The stored vector is modelled with
an opaque integer carrier, since no claim inspects vector contents. -/
structure PrdRow where
  id : String
  title : String
  content : String
  sectionNumber : String
  parentSection : String
  vector : List Int
deriving Repr, DecidableEq

/-- Row of the todo_snapshots collection.  The sections sub-field is stored
JSON-encoded; the encode/decode round-trip is modelled as the identity, so
the row carries the structured value. -/
structure TodoSnapshotRow where
  id : String
  timestamp : String
  sections : List TodoSection
  totalItems : Nat
  completedItems : Nat
  overallCompletionPct : Nat
deriving Repr, DecidableEq

/-- Row of the todo_sections collection.  The items sub-field is stored
JSON-encoded; the round-trip is modelled as the identity. -/
structure TodoSectionRow where
  id : String
  sectionId : String
  name : String
  content : String
  items : List TodoItem
  completionPct : Nat
  sourceFile : String
  vector : List Int
deriving Repr, DecidableEq

/-- Row of the journal_entries collection. -/
structure JournalRow where
  id : String
  timestamp : String
  summary : String
  content : String
  topics : List String
  workCompleted : List String
  openItems : List String
  vector : List Int
deriving Repr, DecidableEq

/-- Row of the session_summaries collection. -/
structure SessionRow where
  id : String
  timestamp : String
  summary : String
  focusAreas : List String
  nextSteps : List String
  vector : List Int
deriving Repr, DecidableEq

/-- Journal entry as decoded by the retrieval layer. -/
structure JournalEntry where
  id : String
  timestamp : String
  summary : String
  content : String
  topics : List String
  workCompleted : List String
  openItems : List String
deriving Repr, DecidableEq

/-- Session summary as decoded by the retrieval layer. -/
structure SessionSummary where
  id : String
  timestamp : String
  summary : String
  focusAreas : List String
  nextSteps : List String
deriving Repr, DecidableEq

/-- Placeholder row written into the todo_snapshots collection when
initializeVectorDB creates it, with the creation time as timestamp and an
empty encoded section list. -/
def initTodoSnapshotRow (now : String) : TodoSnapshotRow :=
  { id := "init", timestamp := now, sections := [],
    totalItems := 0, completedItems := 0, overallCompletionPct := 0 }

/-- Effect of initializeVectorDB on the todo_snapshots collection: an
existing collection is left untouched, a missing one is created holding
exactly the schema-defining placeholder row. -/
def initVectorDBTodoSnapshots (now : String)
    (existing : Option (List TodoSnapshotRow)) : List TodoSnapshotRow :=
  match existing with
  | some table => table
  | none => [initTodoSnapshotRow now]

/-- Embedding input text built by indexTodoSections for one section. -/
def todoSectionEmbedText (s : TodoSectionIndexed) : String :=
  joinLines (("Section " ++ s.sectionId ++ ": " ++ s.name) ::
    s.items.map (fun item =>
      (if item.completed then "[DONE]" else "[TODO]") ++ " " ++
        item.description))

/-- Record appended by indexTodoSections for one section, given the
embeddings provider modelled as a function from text to vector. -/
def todoSectionRecord (embed : String → List Int) (s : TodoSectionIndexed) :
    TodoSectionRow :=
  { id := s.id, sectionId := s.sectionId, name := s.name,
    content := s.content, items := s.items,
    completionPct := s.completionPct, sourceFile := s.sourceFile,
    vector := embed (todoSectionEmbedText s) }

/-- Model of indexTodoSections from storage.ts as a transform of the
todo_sections collection: embed every section and append its record. -/
def indexTodoSections (embed : String → List Int)
    (table : List TodoSectionRow) (sections : List TodoSectionIndexed) :
    List TodoSectionRow :=
  table ++ sections.map (todoSectionRecord embed)

/-- Model of reindexTodoSections from storage.ts: delete every row whose
sourceFile equals the given one, then, when the new section list is
nonempty, run indexTodoSections.  The source issues the delete as a store
predicate with the source file interpolated into a quoted literal; it is
modelled as exact string comparison, which matches the store semantics for
source-file names needing no escaping. -/
def reindexTodoSections (embed : String → List Int)
    (table : List TodoSectionRow) (sections : List TodoSectionIndexed)
    (sourceFile : String) : List TodoSectionRow :=
  let cleared := table.filter (fun r => ¬ r.sourceFile = sourceFile)
  if 0 < sections.length then indexTodoSections embed cleared sections
  else cleared

/-- Environment of the retrieval layer: the lazily-connected store with its
five collections, the embeddings provider, and a similarity score used by
vector search.  The dbOk flag models whether connecting and opening tables
succeeds; the embedOk flag models whether the embeddings call succeeds. -/
structure RetrievalEnv where
  dbOk : Bool
  embedOk : Bool
  prdTable : List PrdRow
  snapshotTable : List TodoSnapshotRow
  sectionTable : List TodoSectionRow
  journalTable : List JournalRow
  sessionTable : List SessionRow
  embed : String → List Int
  score : List Int → List Int → Int

/-- Vector similarity search: rows ordered nearest first by the score
against the query vector, truncated to the limit. -/
def vectorSearch {α : Type} (vecOf : α → List Int)
    (score : List Int → List Int → Int) (qv : List Int) (rows : List α)
    (limit : Nat) : List α :=
  (rows.insertionSort (fun a b => score qv (vecOf b) ≤ score qv (vecOf a))).take
    limit

/-- Decoding of a prd_sections row performed by queryPrdSections. -/
def decodePrdRow (r : PrdRow) : PrdSection :=
  { id := r.id, title := r.title, content := r.content,
    sectionNumber := r.sectionNumber, parentSection := some r.parentSection }

/-- Decoding of a todo_snapshots row performed by getCurrentTodoState,
with the JSON parse of the sections sub-field modelled as the identity. -/
def decodeTodoSnapshotRow (r : TodoSnapshotRow) : TodoState :=
  { timestamp := r.timestamp, sections := r.sections,
    totalItems := r.totalItems, completedItems := r.completedItems,
    overallCompletionPct := r.overallCompletionPct }

/-- Decoding of a journal_entries row performed by queryJournalEntries. -/
def decodeJournalRow (r : JournalRow) : JournalEntry :=
  { id := r.id, timestamp := r.timestamp, summary := r.summary,
    content := r.content, topics := r.topics,
    workCompleted := r.workCompleted, openItems := r.openItems }

/-- Decoding of a session_summaries row performed by getRecentSessions. -/
def decodeSessionRow (r : SessionRow) : SessionSummary :=
  { id := r.id, timestamp := r.timestamp, summary := r.summary,
    focusAreas := r.focusAreas, nextSteps := r.nextSteps }

/-- Fallible body of queryPrdSections: connect and open the table, embed
the query, run the vector search and decode.  Any failure is an error. -/
def queryPrdSectionsE (env : RetrievalEnv) (query : String) (limit : Nat) :
    Except Unit (List PrdSection) :=
  if env.dbOk then
    if env.embedOk then
      Except.ok ((vectorSearch PrdRow.vector env.score (env.embed query)
        env.prdTable limit).map decodePrdRow)
    else Except.error ()
  else Except.error ()

/-- Model of queryPrdSections from retrieval.ts: the fallible body wrapped
in the catch-all that turns any failure into an empty result. -/
def queryPrdSections (env : RetrievalEnv) (query : String) (limit : Nat) :
    List PrdSection :=
  match queryPrdSectionsE env query limit with
  | Except.ok v => v
  | Except.error _ => []

/-- Fallible body of queryJournalEntries. -/
def queryJournalEntriesE (env : RetrievalEnv) (query : String) (limit : Nat) :
    Except Unit (List JournalEntry) :=
  if env.dbOk then
    if env.embedOk then
      Except.ok ((vectorSearch JournalRow.vector env.score (env.embed query)
        env.journalTable limit).map decodeJournalRow)
    else Except.error ()
  else Except.error ()

/-- Model of queryJournalEntries from retrieval.ts: the fallible body
wrapped in the catch-all that turns any failure into an empty result. -/
def queryJournalEntries (env : RetrievalEnv) (query : String) (limit : Nat) :
    List JournalEntry :=
  match queryJournalEntriesE env query limit with
  | Except.ok v => v
  | Except.error _ => []

/-- Model of getCurrentTodoState from retrieval.ts: open the snapshot
collection and run a plain scan query limited to one row, with no ordering
clause, so the rows come back in table scan order (insertion order); the
first row, when any, is decoded, and any failure yields null. -/
def getCurrentTodoState (env : RetrievalEnv) : Option TodoState :=
  if env.dbOk then
    match env.snapshotTable.take 1 with
    | [] => none
    | row :: _ => some (decodeTodoSnapshotRow row)
  else none

/-- Model of getRecentSessions from retrieval.ts: a plain scan query
limited to the given count, decoded rows on success and an empty result on
any failure. -/
def getRecentSessions (env : RetrievalEnv) (limit : Nat) :
    List SessionSummary :=
  if env.dbOk then (env.sessionTable.take limit).map decodeSessionRow
  else []

/-- Context bundle, as in the ContextBundle schema of types.ts. -/
structure ContextBundle where
  recentSessions : List SessionSummary
  todoState : Option TodoState
  relevantPrd : List PrdSection
  journalEntries : List JournalEntry
deriving Repr, DecidableEq

/-- Model of getContextBundle from retrieval.ts: the concurrent join of the
four sub-queries.  Each sub-query catches its own failures, so the join
never fails and is modelled as the product of the four results. -/
def getContextBundle (env : RetrievalEnv) (query : String) : ContextBundle :=
  { recentSessions := getRecentSessions env 3,
    todoState := getCurrentTodoState env,
    relevantPrd := queryPrdSections env query 5,
    journalEntries := queryJournalEntries env query 3 }

/-- Total item count over a section list. -/
def sumItems (secs : List TodoSection) : Nat :=
  (secs.map (fun s => s.items.length)).sum

/-- Completed item count over a section list. -/
def sumDone (secs : List TodoSection) : Nat :=
  (secs.map (fun s => countCompleted s.items)).sum

/-- Invariant carried through the line loop of parseTodoMarkdown: the
running totals count the items of the closed sections plus the open one,
and every closed section carries the completion percentage computed from
its items. -/
def todoInv (st : TodoParseState) : Prop :=
  st.totalItems =
      sumItems st.sections +
        (match st.cur with | some s => s.items.length | none => 0) ∧
  st.completedItems =
      sumDone st.sections +
        (match st.cur with | some s => countCompleted s.items | none => 0) ∧
  ∀ sec ∈ st.sections, sec.completionPct = sectionPct sec.items

/-- Sample checklist section produced by parsing a small document, used to
instantiate the completion-percentage theorem. -/
def c3Sec : TodoSection :=
  { sectionId := "section-1", name := "S",
    items := [{ id := "section-1-1", description := "A", completed := true },
              { id := "section-1-2", description := "B", completed := false }],
    completionPct := 50 }

/-- Sample retrieval environment whose snapshot collection holds two
snapshots whose insertion order disagrees with their timestamp order. -/
def envOutOfOrder : RetrievalEnv :=
  { dbOk := true, embedOk := true,
    prdTable := [], snapshotTable :=
      [{ id := "todo-1", timestamp := "2025-01-01T00:00:00.000Z",
         sections := [], totalItems := 2, completedItems := 1,
         overallCompletionPct := 50 },
       { id := "todo-2", timestamp := "2025-06-01T00:00:00.000Z",
         sections := [], totalItems := 2, completedItems := 2,
         overallCompletionPct := 100 }],
    sectionTable := [], journalTable := [], sessionTable := [],
    embed := fun _ => [], score := fun _ _ => 0 }

/-- Sample retrieval environment with a reachable store, an unreachable
embeddings provider, and data in every collection. -/
def envEmbedDown : RetrievalEnv :=
  { dbOk := true, embedOk := false,
    prdTable := [{ id := "p1", title := "T", content := "C",
                   sectionNumber := "1", parentSection := "", vector := [1] }],
    snapshotTable :=
      [{ id := "todo-1", timestamp := "2025-01-01T00:00:00.000Z",
         sections := [c3Sec], totalItems := 2, completedItems := 1,
         overallCompletionPct := 50 }],
    sectionTable := [],
    journalTable := [{ id := "j1", timestamp := "t", summary := "s",
                       content := "c", topics := [], workCompleted := [],
                       openItems := [], vector := [1] }],
    sessionTable := [{ id := "s1", timestamp := "t", summary := "sum",
                       focusAreas := ["a"], nextSteps := ["n"],
                       vector := [1] }],
    embed := fun _ => [], score := fun _ _ => 0 }

/-- Sample retrieval environment whose store is unreachable. -/
def envDbDown : RetrievalEnv :=
  { dbOk := false, embedOk := true,
    prdTable := [{ id := "p1", title := "T", content := "C",
                   sectionNumber := "1", parentSection := "", vector := [1] }],
    snapshotTable := [], sectionTable := [],
    journalTable := [{ id := "j1", timestamp := "t", summary := "s",
                       content := "c", topics := [], workCompleted := [],
                       openItems := [], vector := [1] }],
    sessionTable := [],
    embed := fun _ => [], score := fun _ _ => 0 }

/-- Sample indexed checklist section whose sourceFile names the checklist
file being reindexed. -/
def secTasks : TodoSectionIndexed :=
  { id := "todo/tasks.md-1", sectionId := "1", name := "Setup",
    content := "- [x] A", items := [{ id := "1-1", description := "A",
                                      completed := true }],
    completionPct := 100, sourceFile := "todo/tasks.md" }

/-- Sample indexed checklist section whose sourceFile names a different
file than the one being reindexed. -/
def secElsewhere : TodoSectionIndexed :=
  { id := "other.md-1", sectionId := "1", name := "Other",
    content := "- [ ] B", items := [{ id := "1-1", description := "B",
                                      completed := false }],
    completionPct := 0, sourceFile := "other.md" }

/-- Sample prior row of the todo_sections collection for the checklist
file being reindexed. -/
def rowPriorTasks : TodoSectionRow :=
  { id := "todo/tasks.md-old", sectionId := "old", name := "Old",
    content := "- [ ] Old", items := [], completionPct := 0,
    sourceFile := "todo/tasks.md", vector := [0] }

/-- Sample prior row of the todo_sections collection for an unrelated
file. -/
def rowPriorOther : TodoSectionRow :=
  { id := "keep.md-1", sectionId := "1", name := "Keep",
    content := "- [ ] Keep", items := [], completionPct := 0,
    sourceFile := "keep.md", vector := [0] }

/-- Lexicographic strict order on character lists by code point, used to
compare ISO timestamp strings, for which it agrees with chronological
order. -/
def strLtChars : List Char → List Char → Bool
  | [], [] => false
  | [], _ :: _ => true
  | _ :: _, [] => false
  | a :: as, b :: bs =>
    if a.toNat < b.toNat then true
    else if b.toNat < a.toNat then false
    else strLtChars as bs

/-- Lexicographic strict order on strings by code point. -/
def strLt (a b : String) : Bool :=
  strLtChars a.data b.data

/-- Sample retrieval environment whose snapshot collection is exactly the
one created by initializeVectorDB on a fresh store, before any real
snapshot is written. -/
def envFreshInit : RetrievalEnv :=
  { dbOk := true, embedOk := true,
    prdTable := [],
    snapshotTable := initVectorDBTodoSnapshots "2025-01-01T00:00:00.000Z" none,
    sectionTable := [], journalTable := [], sessionTable := [],
    embed := fun _ => [], score := fun _ _ => 0 }

/-- Sample open parser state with one pending markdown section. -/
def stOpen : PrdParseState :=
  { sections := [],
    cur := some { id := "f-1", title := "T", content := "",
                  sectionNumber := "1" },
    buf := ["x"], idx := 1 }

/-!
Theorems.
-/

/-- C1: the latest-snapshot lookup is claimed to return the most recent row
by the stored timestamp field.  The code runs a plain scan query limited to
one row with no ordering clause, so it returns the first row in insertion
order: on a collection holding an older snapshot inserted before a newer
one, it returns the older snapshot even though a row with a strictly later
stored timestamp is present, contradicting the comment in the source that
announces "Get most recent by timestamp". -/
theorem getCurrentTodoState_not_latest :
    (getCurrentTodoState envOutOfOrder).map TodoState.timestamp
        = some "2025-01-01T00:00:00.000Z" ∧
      ∃ row ∈ envOutOfOrder.snapshotTable,
        strLt "2025-01-01T00:00:00.000Z" row.timestamp = true := by
  decide

/-- C6 counterexample: on a store just initialized by initializeVectorDB,
the checklist-snapshot collection has no real data yet, only the
schema-defining placeholder row, and the lookup returns that decoded
placeholder rather than null. -/
theorem getCurrentTodoState_init_not_none :
    getCurrentTodoState envFreshInit ≠ none := by
  decide

/-- C6 amended: the lookup returns null exactly when the store is
unreachable or the snapshot collection is empty; after initialization the
placeholder row is present, so it returns the decoded placeholder state,
not null. -/
theorem getCurrentTodoState_none_iff (env : RetrievalEnv) :
    getCurrentTodoState env = none
      ↔ (env.dbOk = false ∨ env.snapshotTable = []) := by
  unfold getCurrentTodoState
  cases hdb : env.dbOk with
  | false => simp
  | true => cases ht : env.snapshotTable <;> simp [List.take]

/-- C2: when the store is reachable but the embeddings provider is not, the
context bundle still carries the decoded recent sessions and the decoded
first snapshot from their collections, while only the two
similarity-dependent fields degrade to empty; each field is computed by its
own sub-query, whose failures are caught inside it, so no sub-query failure
can reach the other three. -/
theorem getContextBundle_embed_down (env : RetrievalEnv) (query : String)
    (hdb : env.dbOk = true) (hemb : env.embedOk = false) :
    getContextBundle env query =
      { recentSessions := (env.sessionTable.take 3).map decodeSessionRow,
        todoState := env.snapshotTable.head?.map decodeTodoSnapshotRow,
        relevantPrd := [],
        journalEntries := [] } := by
  unfold getContextBundle getRecentSessions getCurrentTodoState
    queryPrdSections queryPrdSectionsE queryJournalEntries
    queryJournalEntriesE
  rw [hdb, hemb]
  cases ht : env.snapshotTable <;> simp [List.take]

/-- C2 witness: the graceful-degradation theorem applied to a concrete
environment with data in every collection. -/
theorem getContextBundle_embed_down_witness :
    getContextBundle envEmbedDown "query" =
      { recentSessions := (envEmbedDown.sessionTable.take 3).map
          decodeSessionRow,
        todoState := envEmbedDown.snapshotTable.head?.map
          decodeTodoSnapshotRow,
        relevantPrd := [],
        journalEntries := [] } :=
  getContextBundle_embed_down envEmbedDown "query" rfl rfl

/-- C7: a similarity query over the document sections or the journal
entries returns the empty list whenever the store is unreachable or the
embeddings call fails; both functions are total, so no exception escapes
them. -/
theorem querySimilar_failure_empty (env : RetrievalEnv) (query : String)
    (limit : Nat) (h : env.dbOk = false ∨ env.embedOk = false) :
    queryPrdSections env query limit = []
      ∧ queryJournalEntries env query limit = [] := by
  unfold queryPrdSections queryPrdSectionsE queryJournalEntries
    queryJournalEntriesE
  rcases h with h | h <;> rw [h] <;> cases hdb : env.dbOk <;>
    cases hemb : env.embedOk <;> simp_all

/-- C7 witness: the failure theorem applied to an environment whose store
is unreachable, with nonempty collections behind it. -/
theorem querySimilar_failure_empty_witness :
    queryPrdSections envDbDown "query" 5 = []
      ∧ queryJournalEntries envDbDown "query" 5 = [] :=
  querySimilar_failure_empty envDbDown "query" 5 (Or.inl rfl)

/-- C5 counterexample: the claim quantifies over every section list and
every sourceFile string, but reindexing deletes by the given sourceFile
while inserting records that keep the sourceFile field carried by each section;
with a section whose sourceFile names a different file, the query
restricted to the given sourceFile returns nothing instead of the new
section. -/
theorem reindexTodoSections_mismatch :
    ¬ ((reindexTodoSections (fun _ => []) [] [secElsewhere]
          "todo/tasks.md").filter
            (fun r => r.sourceFile = "todo/tasks.md")
        = [secElsewhere].map (todoSectionRecord (fun _ => []))) := by
  decide

/-- C5 amended: for sections whose sourceFile field equals the given
sourceFile (as produced by todoStateToIndexedSections for that file),
reindexing deletes every prior row of that file and appends the new
records, so the rows of that sourceFile afterwards are exactly the new
section records in order, with no residue of the prior version. -/
theorem reindexTodoSections_exact (embed : String → List Int)
    (table : List TodoSectionRow) (sections : List TodoSectionIndexed)
    (sourceFile : String)
    (h : ∀ s ∈ sections, s.sourceFile = sourceFile) :
    (reindexTodoSections embed table sections sourceFile).filter
        (fun r => r.sourceFile = sourceFile)
      = sections.map (todoSectionRecord embed) := by
  unfold reindexTodoSections indexTodoSections
  have hclear : (table.filter (fun r => ¬ r.sourceFile = sourceFile)).filter
      (fun r => r.sourceFile = sourceFile) = [] := by
    induction table with
    | nil => simp
    | cons r t ih =>
      by_cases hr : r.sourceFile = sourceFile <;>
        simp [List.filter_cons, hr, ih]
  have hnew : (sections.map (todoSectionRecord embed)).filter
      (fun r => r.sourceFile = sourceFile)
      = sections.map (todoSectionRecord embed) := by
    rw [List.filter_eq_self]
    intro r hr
    rcases List.mem_map.mp hr with ⟨s, hs, rfl⟩
    simp [todoSectionRecord, h s hs]
  cases sections with
  | nil =>
    rw [if_neg (by simp : ¬ 0 < ([] : List TodoSectionIndexed).length),
      List.map_nil]
    exact hclear
  | cons s ss =>
    rw [if_pos (by simp : 0 < (s :: ss).length), List.filter_append, hclear,
      List.nil_append]
    exact hnew

/-- C5 witness: the amended reindexing theorem applied to a concrete table
holding a prior row of the reindexed file and a row of another file. -/
theorem reindexTodoSections_exact_witness :
    (reindexTodoSections (fun _ => [0]) [rowPriorTasks, rowPriorOther]
        [secTasks] "todo/tasks.md").filter
          (fun r => r.sourceFile = "todo/tasks.md")
      = [secTasks].map (todoSectionRecord (fun _ => [0])) :=
  reindexTodoSections_exact (fun _ => [0]) [rowPriorTasks, rowPriorOther]
    [secTasks] "todo/tasks.md" (by decide)

/-- Count of completed items over an appended list. -/
theorem countCompleted_append (l1 l2 : List TodoItem) :
    countCompleted (l1 ++ l2) = countCompleted l1 + countCompleted l2 := by
  simp [countCompleted, List.filter_append]

/-- Completed items of a list never exceed its length. -/
theorem countCompleted_le (l : List TodoItem) :
    countCompleted l ≤ l.length :=
  List.length_filter_le _ _

/-- Rounded percentage of a fraction at most one is at most one hundred. -/
theorem roundPct_le_100 (c t : Nat) (hc : c ≤ t) (ht : 0 < t) :
    roundPct c t ≤ 100 := by
  have h200 : 200 * c ≤ 200 * t := Nat.mul_le_mul_left 200 hc
  have hlt : roundPct c t < 101 := by
    rw [roundPct, Nat.div_lt_iff_lt_mul (by omega)]
    omega
  omega

/-- Percentage formula stays within the upper bound for any total. -/
theorem pctFormula_le_100 (c t : Nat) (hc : c ≤ t) :
    pctFormula c t ≤ 100 := by
  unfold pctFormula
  split
  · exact roundPct_le_100 c t hc (by assumption)
  · omega

/-- Completed sums never exceed item sums over a section list. -/
theorem sumDone_le_sumItems (secs : List TodoSection) :
    sumDone secs ≤ sumItems secs := by
  induction secs with
  | nil => simp [sumDone, sumItems]
  | cons s ss ih =>
    simp only [sumDone, sumItems, List.map_cons, List.sum_cons] at *
    exact Nat.add_le_add (countCompleted_le s.items) ih

/-- One parsing step preserves the checklist loop invariant. -/
theorem todoStep_inv (st : TodoParseState) (line : String)
    (h : todoInv st) : todoInv (todoStep st line) := by
  obtain ⟨h1, h2, h3⟩ := h
  unfold todoStep
  cases hm : todoSectionMatch line.data with
  | some p =>
    obtain ⟨num, name⟩ := p
    cases hc : st.cur with
    | none =>
      refine ⟨by simpa [hc] using h1, by simpa [hc] using h2, h3⟩
    | some sec =>
      refine ⟨?_, ?_, ?_⟩
      · simpa [hc, sumItems, closeTodo] using h1
      · simpa [hc, sumDone, closeTodo] using h2
      · intro s hs
        rcases List.mem_append.mp hs with hs | hs
        · exact h3 s hs
        · rcases List.mem_singleton.mp hs with rfl
          rfl
  | none =>
    cases hi : todoItemMatch line.data with
    | none => exact ⟨h1, h2, h3⟩
    | some p =>
      obtain ⟨mk, desc⟩ := p
      cases hc : st.cur with
      | none => exact ⟨by simpa [hc] using h1, by simpa [hc] using h2, h3⟩
      | some sec =>
        refine ⟨?_, ?_, h3⟩
        · simp only [hc] at h1
          simp [h1, List.length_append]
          omega
        · simp only [hc] at h2
          cases hmk : (decide (mk = 'x') || decide (mk = 'X')) <;>
            simp [h2, countCompleted_append, countCompleted,
              List.filter_cons, hmk]
          all_goals omega

/-- Whole line loop of parseTodoMarkdown preserves the invariant. -/
theorem todoFoldl_inv (lines : List String) (st : TodoParseState)
    (h : todoInv st) : todoInv (lines.foldl todoStep st) := by
  induction lines generalizing st with
  | nil => exact h
  | cons l ls ih => exact ih _ (todoStep_inv st l h)

/-- Characterization of the final parsed checklist state: totals equal the
sums over the emitted sections, every section carries the completion
percentage computed from its items, and the overall percentage is the
formula applied to the totals. -/
theorem parseTodo_state (now content : String) :
    (parseTodoMarkdown now content).totalItems
        = sumItems (parseTodoMarkdown now content).sections ∧
      (parseTodoMarkdown now content).completedItems
        = sumDone (parseTodoMarkdown now content).sections ∧
      (∀ sec ∈ (parseTodoMarkdown now content).sections,
        sec.completionPct = sectionPct sec.items) ∧
      (parseTodoMarkdown now content).overallCompletionPct
        = pctFormula (parseTodoMarkdown now content).completedItems
            (parseTodoMarkdown now content).totalItems := by
  have hinv := todoFoldl_inv (splitLines content) ⟨[], none, 0, 0⟩
    ⟨by simp [sumItems], by simp [sumDone], by simp⟩
  set st := (splitLines content).foldl todoStep
    (⟨[], none, 0, 0⟩ : TodoParseState) with hst
  obtain ⟨h1, h2, h3⟩ := hinv
  have hparse : parseTodoMarkdown now content =
      { timestamp := now,
        sections :=
          match st.cur with
          | some sec => st.sections ++ [closeTodo sec]
          | none => st.sections,
        totalItems := st.totalItems,
        completedItems := st.completedItems,
        overallCompletionPct :=
          if 0 < st.totalItems then roundPct st.completedItems st.totalItems
          else 0 } := rfl
  rw [hparse]
  dsimp only
  cases hc : st.cur with
  | none =>
    rw [hc] at h1 h2
    exact ⟨by simpa using h1, by simpa using h2, h3, rfl⟩
  | some sec =>
    rw [hc] at h1 h2
    refine ⟨?_, ?_, ?_, rfl⟩
    · simpa [sumItems, closeTodo] using h1
    · simpa [sumDone, closeTodo] using h2
    · intro s hs
      rcases List.mem_append.mp hs with hs | hs
      · exact h3 s hs
      · rcases List.mem_singleton.mp hs with rfl
        rfl

/-- C3: every section emitted by the checklist parser carries the rounded
percentage of its completed items over its item count, zero for an itemless
section, always within the bounds, and the document-level overall
percentage is the same formula over the running totals; all arithmetic is
over naturals with a guarded division, so no division error or undefined
value can arise. -/
theorem parseTodoMarkdown_pct (now content : String) (sec : TodoSection)
    (hsec : sec ∈ (parseTodoMarkdown now content).sections) :
    sec.completionPct = pctFormula (countCompleted sec.items)
        sec.items.length ∧
      sec.completionPct ≤ 100 ∧
      (parseTodoMarkdown now content).overallCompletionPct
        = pctFormula (parseTodoMarkdown now content).completedItems
            (parseTodoMarkdown now content).totalItems ∧
      (parseTodoMarkdown now content).overallCompletionPct ≤ 100 := by
  obtain ⟨ht, hd, hp, ho⟩ := parseTodo_state now content
  have hsp : sec.completionPct = pctFormula (countCompleted sec.items)
      sec.items.length := hp sec hsec
  refine ⟨hsp, ?_, ho, ?_⟩
  · rw [hsp]
    exact pctFormula_le_100 _ _ (countCompleted_le sec.items)
  · rw [ho]
    apply pctFormula_le_100
    rw [ht, hd]
    exact sumDone_le_sumItems _

/-- C3 witness: the percentage theorem applied to the section parsed from a
two-item document with one completed item. -/
theorem parseTodoMarkdown_pct_witness :
    c3Sec.completionPct = pctFormula (countCompleted c3Sec.items)
        c3Sec.items.length ∧
      c3Sec.completionPct ≤ 100 ∧
      (parseTodoMarkdown "2025-01-01T00:00:00.000Z"
          "## S\n- [x] A\n- [ ] B").overallCompletionPct
        = pctFormula (parseTodoMarkdown "2025-01-01T00:00:00.000Z"
            "## S\n- [x] A\n- [ ] B").completedItems
            (parseTodoMarkdown "2025-01-01T00:00:00.000Z"
              "## S\n- [x] A\n- [ ] B").totalItems ∧
      (parseTodoMarkdown "2025-01-01T00:00:00.000Z"
          "## S\n- [x] A\n- [ ] B").overallCompletionPct ≤ 100 :=
  parseTodoMarkdown_pct "2025-01-01T00:00:00.000Z" "## S\n- [x] A\n- [ ] B"
    c3Sec (by decide)

/-- C4: the totals computed by the checklist parser satisfy the snapshot invariant: the
total item count is the sum of the per-section item counts, and the
completed count never exceeds it. -/
theorem parseTodoMarkdown_totals (now content : String) :
    (parseTodoMarkdown now content).totalItems
        = sumItems (parseTodoMarkdown now content).sections ∧
      (parseTodoMarkdown now content).completedItems
        ≤ (parseTodoMarkdown now content).totalItems := by
  obtain ⟨ht, hd, _, _⟩ := parseTodo_state now content
  refine ⟨ht, ?_⟩
  rw [ht, hd]
  exact sumDone_le_sumItems _

/-- C10: the indexed-sections conversion is exactly a map over the sections of the state, in
sections in order, each output carrying the section fields unchanged, an id
concatenated from the source file and the section id, and the items
rendered one checkbox line per item. -/
theorem todoStateToIndexedSections_spec (state : TodoState)
    (sourceFile : String) :
    todoStateToIndexedSections state sourceFile
      = state.sections.map (todoSectionIndexedSpec sourceFile) := by
  unfold todoStateToIndexedSections
  apply List.map_congr_left
  intro sec _
  have hitems : sec.items.map (fun item =>
      "- [" ++ (if item.completed then "x" else " ") ++ "] " ++
        item.description)
      = sec.items.map renderItemSpec := by
    apply List.map_congr_left
    intro item _
    cases h : item.completed <;>
      · simp only [renderItemSpec, h, if_true, if_false]
        congr 1
  simp only [hitems, todoSectionIndexedSpec]

/-- Run of the markdown line loop from a state with an open section: the
body lines up to the next heading extend the buffer of the open section,
and the rest of the lines contribute the spec-level sections from the
current counter. -/
theorem finishPrd_foldl_open (filename : String) (lines : List String) :
    ∀ (acc : List PrdSection) (sec : PrdSection) (buf : List String)
      (k : Nat),
      finishPrd (lines.foldl (prdStep filename) ⟨acc, some sec, buf, k⟩)
        = acc ++ emitPrd sec (buf ++ lines.takeWhile notHeading)
            ++ markdownSectionsSpec filename k (lines.dropWhile notHeading) := by
  induction lines with
  | nil =>
    intro acc sec buf k
    simp [finishPrd, markdownSectionsSpec]
  | cons l ls ih =>
    intro acc sec buf k
    cases hm : headingMatch l.data with
    | none =>
      have hnh : notHeading l = true := by simp [notHeading, hm]
      rw [List.foldl_cons]
      have hstep : prdStep filename ⟨acc, some sec, buf, k⟩ l
          = ⟨acc, some sec, buf ++ [l], k⟩ := by
        simp [prdStep, hm]
      rw [hstep, ih, List.takeWhile_cons_of_pos hnh,
        List.dropWhile_cons_of_pos hnh]
      simp
    | some p =>
      obtain ⟨lvl, title⟩ := p
      have hnh : ¬ notHeading l = true := by simp [notHeading, hm]
      rw [List.foldl_cons]
      have hstep : prdStep filename ⟨acc, some sec, buf, k⟩ l
          = ⟨acc ++ emitPrd sec buf,
             some { id := filename ++ "-" ++ toString (k + 1),
                    title := String.mk title, content := "",
                    sectionNumber := toString (k + 1) },
             [], k + 1⟩ := by
        simp [prdStep, hm]
      rw [hstep, ih, List.takeWhile_cons_of_neg hnh,
        List.dropWhile_cons_of_neg hnh]
      have hspec : markdownSectionsSpec filename k (l :: ls)
          = (if trimJS (joinLines (ls.takeWhile notHeading)) = "" then []
             else [{ id := filename ++ "-" ++ toString (k + 1),
                     title := String.mk title,
                     content := trimJS (joinLines (ls.takeWhile notHeading)),
                     sectionNumber := toString (k + 1) }]) ++
              markdownSectionsSpec filename (k + 1)
                (ls.dropWhile notHeading) := by
        rw [markdownSectionsSpec]
        simp [hm]
      rw [hspec]
      simp [emitPrd, List.append_assoc]

/-- Run of the markdown line loop from a state with no open section: lines
before the first heading are skipped, and the result appends the spec-level
sections to the already emitted ones. -/
theorem finishPrd_foldl_closed (filename : String) (lines : List String) :
    ∀ (acc : List PrdSection) (buf : List String) (k : Nat),
      finishPrd (lines.foldl (prdStep filename) ⟨acc, none, buf, k⟩)
        = acc ++ markdownSectionsSpec filename k lines := by
  induction lines with
  | nil =>
    intro acc buf k
    simp [finishPrd, markdownSectionsSpec]
  | cons l ls ih =>
    intro acc buf k
    cases hm : headingMatch l.data with
    | none =>
      rw [List.foldl_cons]
      have hstep : prdStep filename ⟨acc, none, buf, k⟩ l
          = ⟨acc, none, buf, k⟩ := by
        simp [prdStep, hm]
      rw [hstep, ih]
      have hspec : markdownSectionsSpec filename k (l :: ls)
          = markdownSectionsSpec filename k ls := by
        rw [markdownSectionsSpec]
        simp [hm]
      rw [hspec]
    | some p =>
      obtain ⟨lvl, title⟩ := p
      rw [List.foldl_cons]
      have hstep : prdStep filename ⟨acc, none, buf, k⟩ l
          = ⟨acc,
             some { id := filename ++ "-" ++ toString (k + 1),
                    title := String.mk title, content := "",
                    sectionNumber := toString (k + 1) },
             [], k + 1⟩ := by
        simp [prdStep, hm]
      rw [hstep, finishPrd_foldl_open]
      have hspec : markdownSectionsSpec filename k (l :: ls)
          = (if trimJS (joinLines (ls.takeWhile notHeading)) = "" then []
             else [{ id := filename ++ "-" ++ toString (k + 1),
                     title := String.mk title,
                     content := trimJS (joinLines (ls.takeWhile notHeading)),
                     sectionNumber := toString (k + 1) }]) ++
              markdownSectionsSpec filename (k + 1)
                (ls.dropWhile notHeading) := by
        rw [markdownSectionsSpec]
        simp [hm]
      rw [hspec]
      simp [emitPrd, List.append_assoc]

/-- C8: the markdown section parser agrees with its spec-level description
on every document, so a heading whose accumulated body trims to empty
yields no section while still advancing the per-heading counter; on the
claimed scenario document the parser emits exactly the two sections titled
Title and Filled, numbered one and three across the three headings seen. -/
theorem parseMarkdownSections_spec_scenario :
    (∀ content filename : String,
        parseMarkdownSections content filename
          = markdownSectionsSpec filename 0 (splitLines content)) ∧
      parseMarkdownSections
          "# Title\n\nIntro text\n\n## Empty\n\n## Filled\n\nBody text\n"
          "doc"
        = [{ id := "doc-1", title := "Title", content := "Intro text",
             sectionNumber := "1" },
           { id := "doc-3", title := "Filled", content := "Body text",
             sectionNumber := "3" }] := by
  constructor
  · intro content filename
    rw [parseMarkdownSections, finishPrd_foldl_closed]
    simp
  · decide

/-- C9: only a line opening with one to three hashes followed by
whitespace starts a section: a line opening with four hashes never matches
the heading pattern, a line whose character after the hash run is not
whitespace never matches, and every non-matching line is appended verbatim
to the body of the open section, or ignored when none is open; in the
concrete document the level-four heading line survives inside the body of
the enclosing section. -/
theorem deepHeading_is_body :
    (∀ rest : List Char,
        headingMatch ('#' :: '#' :: '#' :: '#' :: rest) = none) ∧
      (∀ (l : List Char) (c : Char) (cs : List Char),
        l.dropWhile (· = '#') = c :: cs → isWs c = false →
          headingMatch l = none) ∧
      (∀ (filename : String) (st : PrdParseState) (line : String),
        headingMatch line.data = none →
          prdStep filename st line
            = match st.cur with
              | some _ => { st with buf := st.buf ++ [line] }
              | none => st) ∧
      parseMarkdownSections "# T\n#### Deep\nBody" "f"
        = [{ id := "f-1", title := "T", content := "#### Deep\nBody",
             sectionNumber := "1" }] := by
  refine ⟨?_, ?_, ?_, by decide⟩
  · intro rest
    have h4 : (('#' :: '#' :: '#' :: '#' :: rest).takeWhile
        (· = '#')).length = 4 + (rest.takeWhile (· = '#')).length := by
      simp [List.takeWhile_cons]
      omega
    simp only [headingMatch, h4]
    rw [if_neg (by omega)]
  · intro l c cs hdrop hws
    simp only [headingMatch, hdrop, hws]
    split
    · rfl
    · rfl
  · intro filename st line h
    simp [prdStep, h]

/-- C9 witness: a four-hash line handed to the parser step with an open
section lands verbatim in the body buffer. -/
theorem deepHeading_is_body_witness :
    prdStep "f" stOpen "#### Deep"
      = { stOpen with buf := stOpen.buf ++ ["#### Deep"] } :=
  deepHeading_is_body.2.2.1 "f" stOpen "#### Deep" (by decide)

end Mao
